import Mathlib

/-!
# Verification of the meli mail-backend core specification

Shallow embedding of the mail-backend core of the `meli` repository:

* the mbox parser and message iterator (`src/melib/src/backends/mbox.rs`),
* the notmuch tag/flag conversions (`src/melib/src/backends/notmuch.rs`),
* the IMAP watcher change-detection algorithm
  (`src/melib/src/backends/imap/watch.rs`).

Byte buffers are modelled as `List Nat` (each element an octet value).
Rust `HashMap`s are modelled as association lists.  Components of the
repository that are not part of the provided sources (the generic RFC 5322
envelope parser and the envelope hash) are modelled from the
specification; each such definition is marked `Modelled from the spec:` in
its doc comment.
-/

set_option autoImplicit false

namespace Meli

/-! ## Byte-buffer utilities -/

/-- Bytes of an ASCII string, used to write concrete buffers legibly. -/
def bytesOf (s : String) : List Nat := s.toList.map Char.toNat

/-- Does `l` start with `p`?  (Rust `slice::starts_with`.) -/
def startsWithB : List Nat → List Nat → Bool
  | _, [] => true
  | [], _ :: _ => false
  | a :: as_, b :: bs => a == b && startsWithB as_ bs

/-- First index at which the needle `pat` occurs in `s`, searching from
index `i`.  Mirrors melib `BytesExt::find` (which returns the first
occurrence of the needle as a subslice). -/
def findSubAux (pat : List Nat) : List Nat → Nat → Option Nat
  | [], i => if pat.isEmpty then some i else none
  | s@(_ :: rest), i => if startsWithB s pat then some i else findSubAux pat rest (i + 1)

/-- First index at which `pat` occurs in `s` (melib `BytesExt::find`). -/
def findSub (s pat : List Nat) : Option Nat := findSubAux pat s 0

/-- Rust `u8::is_ascii_whitespace`: space, tab, line feed, form feed,
carriage return. -/
def isWsByte (b : Nat) : Bool := b == 32 || b == 9 || b == 10 || b == 12 || b == 13

/-- melib `BytesExt::ltrim`: drop leading ASCII whitespace. -/
def ltrimB (l : List Nat) : List Nat := l.dropWhile isWsByte

/-- melib `BytesExt::trim`: drop leading and trailing ASCII whitespace. -/
def trimB (l : List Nat) : List Nat := (ltrimB ((ltrimB l.reverse)).reverse)

/-- Split a buffer at line-feed bytes; the separators are consumed.
Splitting an empty buffer yields one empty line. -/
def splitOnNl : List Nat → List (List Nat)
  | [] => [[]]
  | c :: rest =>
    match splitOnNl rest with
    | [] => [[]]
    | hd :: tl => if c == 10 then [] :: hd :: tl else (c :: hd) :: tl

/-! ## Flags

Modelled from the spec (§3): `Flag` is "a bitset over
{Seen, Answered/Replied, Flagged, Trashed, Draft, Passed}".  The source
type is a Rust `bitflags` struct with a derived `Default`, so the default
value is the empty set, matching the explicit `Flag::empty()` used by the
mbox code. -/

/-- Modelled from the spec: the flag bitset over
Seen/Replied/Flagged/Trashed/Draft/Passed. -/
structure Flag where
  passed : Bool := false
  replied : Bool := false
  seen : Bool := false
  trashed : Bool := false
  draft : Bool := false
  flagged : Bool := false
  deriving Repr, DecidableEq

/-- `Flag::empty()` / derived `Flag::default()`: the empty bitset. -/
def Flag.emptyFlag : Flag := {}

/-- Bitwise or of two flag sets (Rust `|` on bitflags). -/
def Flag.orFlag (a b : Flag) : Flag :=
  { passed := a.passed || b.passed
    replied := a.replied || b.replied
    seen := a.seen || b.seen
    trashed := a.trashed || b.trashed
    draft := a.draft || b.draft
    flagged := a.flagged || b.flagged }

/-! ## Envelope model

The generic RFC 5322 envelope parser (`Envelope::from_bytes` in
`melib::email`) is not among the provided sources; only its callers are.
It is modelled from the spec (§4.1): `parse_envelope(bytes) → Envelope |
ParseError`, where an envelope is a parsed header summary, and the hash
"is computed from the canonicalized Message-ID (if present and
well-formed) else from a stable digest of date+from+subject+first-N-body
bytes".  We fix the digest length N at 64 bytes and use a deterministic
polynomial digest. -/

/-- Modelled from the spec: a parsed envelope is a header summary
(name/value pairs in order), the body bytes, the content-derived 64-bit
hash, and the flag set. -/
structure Envelope where
  headers : List (List Nat × List Nat)
  body : List Nat
  hash : Nat
  flags : Flag
  deriving Repr, DecidableEq

/-- Modelled from the spec: a deterministic 64-bit digest of a byte
sequence. -/
def hashBytesSpec (l : List Nat) : Nat :=
  l.foldl (fun a b => (a * 131 + b + 1) % (2 ^ 64)) 7

/-- Value of the first header with the given name, or `[]` when absent. -/
def headerValueOf (hs : List (List Nat × List Nat)) (name : List Nat) : List Nat :=
  ((hs.find? (fun p => p.1 == name)).map (fun p => p.2)).getD []

/-- Modelled from the spec: number of leading body bytes entering the
digest when no Message-ID is present ("first-N-body-bytes"). -/
def digestBodyLen : Nat := 64

/-- Modelled from the spec: the envelope hash is the digest of the
canonicalized (whitespace-trimmed) Message-ID when that header is
present, else the digest of date+from+subject+first-N-body bytes. -/
def envelopeHashOf (hs : List (List Nat × List Nat)) (body : List Nat) : Nat :=
  match hs.find? (fun p => p.1 == bytesOf "Message-ID") with
  | some p => hashBytesSpec (trimB p.2)
  | none =>
      hashBytesSpec (headerValueOf hs (bytesOf "Date") ++ headerValueOf hs (bytesOf "From")
        ++ headerValueOf hs (bytesOf "Subject") ++ body.take digestBodyLen)

/-- A byte allowed in an RFC 5322 header field name: printable US-ASCII
except the colon. -/
def isFieldByte (b : Nat) : Bool := 33 ≤ b && b ≤ 126 && b != 58

/-- Modelled from the spec: parse one header line `name ":" value`; the
name must be nonempty and consist of field-name bytes, the value is
trimmed of leading whitespace. -/
def parseHeaderLine (line : List Nat) : Option (List Nat × List Nat) :=
  let name := line.takeWhile isFieldByte
  match line.drop name.length with
  | 58 :: value => if name.isEmpty then none else some (name, ltrimB value)
  | _ => none

/-- Modelled from the spec: parse the lines of a header block.  A line
starting with space or tab folds into the previous header value; every
other line must parse as a header. -/
def parseHeaderLines : List (List Nat) → List (List Nat × List Nat) →
    Option (List (List Nat × List Nat))
  | [], acc => some acc.reverse
  | line :: rest, acc =>
    match line with
    | [] => none
    | b :: _ =>
      if b == 32 || b == 9 then
        match acc with
        | [] => none
        | (n, v) :: accRest => parseHeaderLines rest ((n, v ++ line) :: accRest)
      else
        match parseHeaderLine line with
        | some h => parseHeaderLines rest (h :: acc)
        | none => none

/-- Modelled from the spec: `Envelope::from_bytes` — split the input at
the first blank line into header block and body, parse every header
line, and compute the content-derived hash; fails when the header block
is empty or any header line is malformed.  Flags start empty (the mbox
and notmuch callers assign them afterwards). -/
def Envelope.from_bytes (input : List Nat) : Option Envelope :=
  let headersEnd := (findSub input [10, 10]).getD input.length
  let headerBytes := input.take headersEnd
  let body := input.drop (headersEnd + 2)
  match parseHeaderLines (splitOnNl headerBytes) [] with
  | none => none
  | some [] => none
  | some hs =>
      some { headers := hs, body := body, hash := envelopeHashOf hs body,
             flags := Flag.emptyFlag }

/-- `env.other_headers()[name]` lookup used by the mbox parser. -/
def Envelope.getHeader (e : Envelope) (name : List Nat) : Option (List Nat) :=
  (e.headers.find? (fun p => p.1 == name)).map (fun p => p.2)

/-- `Envelope::set_flags`. -/
def Envelope.set_flags (e : Envelope) (f : Flag) : Envelope := { e with flags := f }

/-! ## mbox parser (`src/melib/src/backends/mbox.rs`)

`crate::email::parser::headers::header` (used by the `find_From__line!`
macro to validate a candidate) is not among the provided sources; it is
modelled from the spec (§4.2): a candidate `From ` line must be
"followed by a line that parses as a header". -/

/-- Modelled from the spec: does the input start with a line that parses
as a header, i.e. a nonempty run of field-name bytes followed by a
colon? -/
def headerStartsAux : List Nat → Nat → Bool
  | [], _ => false
  | b :: rest, seen => if b == 58 then decide (0 < seen)
      else if isFieldByte b then headerStartsAux rest (seen + 1) else false

/-- Modelled from the spec: recognizer for "parses as a header" at the
start of the input. -/
def headerStarts (input : List Nat) : Bool := headerStartsAux input 0

/-- The needle of the `find_From__line!` macro: `b"\n\nFrom "`. -/
def fromTag : List Nat := bytesOf "\n\nFrom "

/-- Loop body of the `find_From__line!` macro (mbox.rs:405-440).  `ptr`
is the scan position; the fuel argument bounds the iteration count (each
iteration advances `ptr` by at least the tag length, so
`input.length + 1` fuel is always enough). -/
def find_From_lineAux (input : List Nat) : Nat → Nat → Option Nat
  | 0, _ => none
  | fuel + 1, ptr =>
    if ptr < input.length then
      match findSub (input.drop ptr) fromTag with
      | some e =>
        match findSub (input.drop (ptr + e + 7)) [10] with
        | some lineEnd =>
          if headerStarts (input.drop (ptr + e + 7 + lineEnd + 1)) then
            some (ptr + e)
          else
            find_From_lineAux input fuel (ptr + e + 7 + lineEnd)
        | none => find_From_lineAux input fuel (ptr + e + 7)
      | none => some input.length
    else none

/-- The `find_From__line!` macro: position of the next valid `From_`
candidate (the index of the first of the two preceding newline bytes),
`some input.length` when no further `\n\nFrom ` occurs, `none` when the
scan runs off the end of the buffer. -/
def find_From_line (input : List Nat) : Option Nat :=
  find_From_lineAux input (input.length + 1) 0

/-- The repeated `Status`/`X-Status` letter block of `MboxFormat::parse`
(mbox.rs:455-485 and its copies): `F` sets Flagged, `A` Replied, `R`
Seen, `D` Trashed, and — only when `withT` (the `X-Status` block) — `T`
sets Draft. -/
def applyStatusLetters (flags : Flag) (v : List Nat) (withT : Bool) : Flag :=
  let flags := if v.contains 70 then { flags with flagged := true } else flags
  let flags := if v.contains 65 then { flags with replied := true } else flags
  let flags := if v.contains 82 then { flags with seen := true } else flags
  let flags := if v.contains 68 then { flags with trashed := true } else flags
  if withT && v.contains 84 then { flags with draft := true } else flags

/-- Flags assigned by `MboxFormat::parse` from the envelope's `Status`
and `X-Status` headers.  NB: the `Status` block of the source checks
only F/A/R/D; the `T` (Draft) letter is honoured only in the `X-Status`
block. -/
def mboxParseFlags (env : Envelope) : Flag :=
  let f := Flag.emptyFlag
  let f := match env.getHeader (bytesOf "Status") with
    | some v => applyStatusLetters f v false
    | none => f
  match env.getHeader (bytesOf "X-Status") with
  | some v => applyStatusLetters f v true
  | none => f

/-- `env.set_flags(flags)` as performed by every `MboxFormat::parse`
branch after a successful `Envelope::from_bytes`. -/
def withMboxFlags (env : Envelope) : Envelope := env.set_flags (mboxParseFlags env)

/-- The four mbox format variants. -/
inductive MboxFormat
  | MboxO
  | MboxRd
  | MboxCl
  | MboxCl2
  deriving Repr, DecidableEq

/-- The `Self::MboxO` arm of `MboxFormat::parse` (mbox.rs:447-543): find
the next `From_` candidate, skip the postmark line, parse the envelope
from the bytes in between, assign Status/X-Status flags, and return the
remaining input (skipping the two separator newlines when not at end of
file). -/
def parseMboxO (input : List Nat) : Option (List Nat × Envelope) :=
  match (find_From_line input).bind
      (fun e => (findSub input [10]).map (fun v => (v + 1, e))) with
  | some (start, len) =>
    match Envelope.from_bytes ((input.drop start).take (len - start)) with
    | some env =>
      let env := withMboxFlags env
      if len == input.length then some ([], env)
      else some (input.drop (len + 2), env)
    | none => none
  | none =>
    let start := ((findSub input [10]).map (fun v => v + 1)).getD 0
    match Envelope.from_bytes (input.drop start) with
    | some env => some ([], withMboxFlags env)
    | none => none

/-- The `Self::MboxRd` arm of `MboxFormat::parse` (mbox.rs:545-641).
The source of this arm is character-for-character identical to the
`MboxO` arm: no `>From `-unquoting is performed on read. -/
def parseMboxRd (input : List Nat) : Option (List Nat × Envelope) :=
  match (find_From_line input).bind
      (fun e => (findSub input [10]).map (fun v => (v + 1, e))) with
  | some (start, len) =>
    match Envelope.from_bytes ((input.drop start).take (len - start)) with
    | some env =>
      let env := withMboxFlags env
      if len == input.length then some ([], env)
      else some (input.drop (len + 2), env)
    | none => none
  | none =>
    let start := ((findSub input [10]).map (fun v => v + 1)).getD 0
    match Envelope.from_bytes (input.drop start) with
    | some env => some ([], withMboxFlags env)
    | none => none

/-- Content-Length extraction of the `MboxCl | MboxCl2` arm
(mbox.rs:643-671): skip the postmark line, locate `"Content-Length: "`
inside the header block, and parse the decimal digits after the tag
(after trimming leading whitespace).  `none` reproduces every `return
Self::MboxRd.parse(orig_input)` fallback site of that prefix. -/
def cl2ContentLength (input : List Nat) : Option Nat :=
  let start := ((findSub input [10]).map (fun v => v + 1)).getD 0
  let input1 := input.drop start
  let headersEnd := (findSub input1 [10, 10]).getD input1.length
  match findSub (input1.take headersEnd) (bytesOf "Content-Length: ") with
  | none => none
  | some cl =>
    let ds := (ltrimB (input1.drop (cl + 15))).takeWhile (fun b => 48 ≤ b && b ≤ 57)
    if ds.isEmpty then none
    else some (ds.foldl (fun a b => a * 10 + (b - 48)) 0)

/-- The `Envelope::from_bytes` call of the `MboxCl | MboxCl2` arm
(mbox.rs:673): the envelope is read from `headers_end + content_length`
bytes after the postmark line. -/
def cl2EnvelopeAttempt (input : List Nat) (bytesN : Nat) : Option Envelope :=
  let start := ((findSub input [10]).map (fun v => v + 1)).getD 0
  let input1 := input.drop start
  let headersEnd := (findSub input1 [10, 10]).getD input1.length
  Envelope.from_bytes (input1.take (headersEnd + bytesN))

/-- The `Self::MboxCl | Self::MboxCl2` arm of `MboxFormat::parse`
(mbox.rs:643-717): on any Content-Length extraction failure or envelope
parse error, fall back to `MboxRd` on the original input. -/
def parseMboxCl (input : List Nat) : Option (List Nat × Envelope) :=
  let start := ((findSub input [10]).map (fun v => v + 1)).getD 0
  let input1 := input.drop start
  let headersEnd := (findSub input1 [10, 10]).getD input1.length
  match cl2ContentLength input with
  | none => parseMboxRd input
  | some bytesN =>
    match cl2EnvelopeAttempt input bytesN with
    | some env =>
      let env := withMboxFlags env
      if input1.length ≤ headersEnd + 2 + bytesN then some ([], env)
      else some (input1.drop (headersEnd + 3 + bytesN), env)
    | none => parseMboxRd input

/-- `MboxFormat::parse` (mbox.rs:443-719). -/
def MboxFormat.parse : MboxFormat → List Nat → Option (List Nat × Envelope)
  | .MboxO, input => parseMboxO input
  | .MboxRd, input => parseMboxRd input
  | .MboxCl, input => parseMboxCl input
  | .MboxCl2, input => parseMboxCl input

/-! ## mbox message iterator (`MessageIterator`, mbox.rs:769-822) -/

/-- The per-mailbox index `EnvelopeHash → (Offset, Length)` as an
association list, and an insertion that overrides any previous binding
(Rust `HashMap::insert`). -/
def insertIdx (m : List (Nat × (Nat × Nat))) (k : Nat) (v : Nat × Nat) :
    List (Nat × (Nat × Nat)) :=
  (k, v) :: m.filter (fun p => !(p.1 == k))

/-- State of `MessageIterator`. -/
structure MessageIterator where
  index : List (Nat × (Nat × Nat))
  input : List Nat
  file_offset : Nat
  offset : Nat
  format : Option MboxFormat
  deriving Repr, DecidableEq

/-- One yielded item of the iterator: `Some(Ok(env))` is `ok`,
`Some(Err(e))` is `err`. -/
inductive MessageResult
  | ok (env : Envelope)
  | err
  deriving Repr, DecidableEq

/-- The unparsed suffix the iterator currently looks at:
`self.input[self.offset + self.file_offset..]`. -/
def MessageIterator.chunk (it : MessageIterator) : List Nat :=
  it.input.drop (it.offset + it.file_offset)

/-- The `start` computation of the iterator's success path
(mbox.rs:810-813): index of the first byte after the first newline of
the chunk — the first byte of the header block after the `From_` line —
or 0 when the chunk has no newline. -/
def postmarkSkip (chunk : List Nat) : Nat :=
  ((findSub chunk [10]).map (fun v => v + 1)).getD 0

/-- Replace the pinned format of an iterator. -/
def MessageIterator.setFormat (it : MessageIterator) (fmt : Option MboxFormat) :
    MessageIterator :=
  { it with format := fmt }

/-- Offset advance of the recovery branch (mbox.rs:792-802): skip to the
candidate, then over the two separator newlines unless at end of file. -/
def MessageIterator.advance (it : MessageIterator) (nextOffset : Nat) : MessageIterator :=
  let it := { it with offset := it.offset + nextOffset }
  if it.offset != it.input.length then { it with offset := it.offset + 2 } else it

/-- The `while` loop of `MessageIterator::next` (mbox.rs:786-819).  Each
iteration either returns, or advances `offset` and recurses; the fuel
bounds the number of iterations. -/
def msgNextAux : Nat → MessageIterator → MessageIterator × Option MessageResult
  | 0, it => (it, none)
  | fuel + 1, it =>
    if it.chunk.isEmpty then (it, none)
    else
      match (it.format.getD .MboxCl2).parse it.chunk with
      | some (nextInput, env) =>
        let start := postmarkSkip it.chunk
        let len := it.input.length - nextInput.length - it.offset - it.file_offset - start
        let it := { it with
          index := insertIdx it.index env.hash (it.offset + it.file_offset + start, len),
          offset := it.offset + len + start }
        (it, some (.ok env))
      | none =>
        match find_From_line it.chunk with
        | some nextOffset => msgNextAux fuel (it.advance nextOffset)
        | none => ({ it with input := [] }, some .err)

/-- `MessageIterator::next` (mbox.rs:779-821): `none` models `None`
(stream exhausted). -/
def MessageIterator.next (it : MessageIterator) : MessageIterator × Option MessageResult :=
  if it.input.isEmpty then (it, none)
  else msgNextAux (it.input.length + 2) it

/-- Drive the iterator, collecting up to `n` yielded items. -/
def msgIterRun : Nat → MessageIterator → List MessageResult
  | 0, _ => []
  | n + 1, it =>
    match it.next with
    | (_, none) => []
    | (it', some r) => r :: msgIterRun n it'

/-- Body of a yielded item, for stating concrete scenarios. -/
def MessageResult.bodyOf : MessageResult → Option (List Nat)
  | .ok env => some env.body
  | .err => none

/-! ## mbox fetch stream (`FetchState::fetch`, mbox.rs:857-948) -/

/-- The bounded `for _i in 0..150` loop of `FetchState::fetch`
(mbox.rs:880-893): pull up to `n` items from the iterator, keep the
`Ok` envelopes, drop (log) the `Err` items, and report whether the
iterator signalled exhaustion (`done`). -/
def fetchBatchAux : Nat → MessageIterator → MessageIterator × List Envelope × Bool
  | 0, it => (it, [], false)
  | n + 1, it =>
    match it.next with
    | (it', none) => (it', [], true)
    | (it', some (.ok env)) =>
      let r := fetchBatchAux n it'
      (r.1, env :: r.2.1, r.2.2)
    | (it', some .err) => fetchBatchAux n it'

/-- State carried across calls of `FetchState::fetch`. -/
structure FetchState where
  offset : Nat
  file_offset : Nat
  contents : List Nat
  prefer_mbox_type : Option MboxFormat
  index : List (Nat × (Nat × Nat))
  deriving Repr, DecidableEq

/-- One call of `FetchState::fetch` (mbox.rs:867-916): build a
`MessageIterator` over the slurped contents, take a batch of at most 150
envelopes, write back the iterator offsets; return `none` (ending the
stream) exactly when the iterator is exhausted and the batch is empty.
(The final-batch snapshot of `contents` into the mailbox record affects
no observable of the claims and is omitted.) -/
def FetchState.fetch (s : FetchState) : FetchState × Option (List Envelope) :=
  let it : MessageIterator :=
    { index := s.index, input := s.contents, file_offset := s.file_offset,
      offset := s.offset, format := s.prefer_mbox_type }
  let r := fetchBatchAux 150 it
  let s' := { s with offset := r.1.offset, file_offset := r.1.file_offset,
                     index := r.1.index }
  match r with
  | (_, payload, true) => if payload.isEmpty then (s', none) else (s', some payload)
  | (_, payload, false) => (s', some payload)

/-- The fetch stream loop (mbox.rs:938-948): yield batches until a call
returns `none`. -/
def fetchStream : Nat → FetchState → List (List Envelope)
  | 0, _ => []
  | n + 1, s =>
    match s.fetch with
    | (_, none) => []
    | (s', some batch) => batch :: fetchStream n s'

/-! ## notmuch tag/flag conversions
(`src/melib/src/backends/notmuch.rs`) -/

/-- The tag loop of `TagIterator::collect_flags_and_tags`
(notmuch.rs:977-1004): starting from `Flag::default()` (the empty
bitset), the six canonical tags set their flag — `unread` clears Seen —
and every other tag is pushed onto the label list. -/
def collectStep (acc : Flag × List (List Nat)) (t : List Nat) : Flag × List (List Nat) :=
  if t == bytesOf "draft" then ({ acc.1 with draft := true }, acc.2)
  else if t == bytesOf "flagged" then ({ acc.1 with flagged := true }, acc.2)
  else if t == bytesOf "passed" then ({ acc.1 with passed := true }, acc.2)
  else if t == bytesOf "replied" then ({ acc.1 with replied := true }, acc.2)
  else if t == bytesOf "unread" then ({ acc.1 with seen := false }, acc.2)
  else if t == bytesOf "trashed" then ({ acc.1 with trashed := true }, acc.2)
  else (acc.1, acc.2 ++ [t])

/-- The maildir-filename flag scan `fn flags(path)` inside
`collect_flags_and_tags` (notmuch.rs:944-973): walk backwards from the
end of the path collecting D/F/P/R/S/T until the `":2,"` marker; any
other byte, or running off the front, yields the empty set. -/
def maildirPathFlagsAux (path : List Nat) : Nat → Nat → Flag → Flag
  | 0, _, _ => Flag.emptyFlag
  | fuel + 1, ptr, flag =>
    if startsWithB ((path.take (ptr + 1)).reverse) (bytesOf ",2:") then flag
    else
      match path.getD ptr 0 with
      | 68 => if ptr == 0 then Flag.emptyFlag
              else maildirPathFlagsAux path fuel (ptr - 1) { flag with draft := true }
      | 70 => if ptr == 0 then Flag.emptyFlag
              else maildirPathFlagsAux path fuel (ptr - 1) { flag with flagged := true }
      | 80 => if ptr == 0 then Flag.emptyFlag
              else maildirPathFlagsAux path fuel (ptr - 1) { flag with passed := true }
      | 82 => if ptr == 0 then Flag.emptyFlag
              else maildirPathFlagsAux path fuel (ptr - 1) { flag with replied := true }
      | 83 => if ptr == 0 then Flag.emptyFlag
              else maildirPathFlagsAux path fuel (ptr - 1) { flag with seen := true }
      | 84 => if ptr == 0 then Flag.emptyFlag
              else maildirPathFlagsAux path fuel (ptr - 1) { flag with trashed := true }
      | _ => Flag.emptyFlag

/-- `fn flags(path)` of `collect_flags_and_tags`. -/
def maildirPathFlags (path : List Nat) : Flag :=
  maildirPathFlagsAux path (path.length + 1) (path.length - 1) Flag.emptyFlag

/-- `TagIterator::collect_flags_and_tags` (notmuch.rs:943-1007): the
flag set is the or of the tag-derived flags and the maildir-filename
flags; the labels are the non-canonical tags in order. -/
def collect_flags_and_tags (path : List Nat) (tags : List (List Nat)) :
    Flag × List (List Nat) :=
  let r := tags.foldl collectStep (Flag.emptyFlag, [])
  (Flag.orFlag r.1 (maildirPathFlags path), r.2)

/-- A flag flip passed to `NotmuchDb::set_flags`:
`Result<Flag, String>` — `.ok` one of the matched canonical flags,
`.error` a user-label tag name. -/
inductive FlagOrLabel
  | draft
  | flagged
  | passed
  | replied
  | seen
  | trashed
  | otherFlag
  deriving Repr, DecidableEq

/-- `add_tag!` (notmuch.rs:749-769): if the pre-computed tag snapshot
already contains the tag, `continue` (skip the library call); else add
it to the message's current tag set. -/
def addTagOp (snapshot cur : List (List Nat)) (t : List Nat) : List (List Nat) :=
  if snapshot.contains t then cur
  else if cur.contains t then cur else cur ++ [t]

/-- `remove_tag!` (notmuch.rs:770-790): if the snapshot does not contain
the tag, `continue`; else remove it from the current tag set. -/
def removeTagOp (snapshot cur : List (List Nat)) (t : List Nat) : List (List Nat) :=
  if !(snapshot.contains t) then cur else cur.filter (fun x => !(x == t))

/-- One arm of the `for (f, v) in flags.iter()` match of
`NotmuchDb::set_flags` (notmuch.rs:792-817).  NB: in the source both the
`Err(tag) if value` and the `Err(tag)` arm call `add_tag!`; a
user-label flip with value `false` also adds the tag. -/
def setFlagsStep (snapshot : List (List Nat)) (cur : List (List Nat))
    (flip : Except (List Nat) FlagOrLabel × Bool) : List (List Nat) :=
  match flip with
  | (.ok .draft, true) => addTagOp snapshot cur (bytesOf "draft")
  | (.ok .draft, false) => removeTagOp snapshot cur (bytesOf "draft")
  | (.ok .flagged, true) => addTagOp snapshot cur (bytesOf "flagged")
  | (.ok .flagged, false) => removeTagOp snapshot cur (bytesOf "flagged")
  | (.ok .passed, true) => addTagOp snapshot cur (bytesOf "passed")
  | (.ok .passed, false) => removeTagOp snapshot cur (bytesOf "passed")
  | (.ok .replied, true) => addTagOp snapshot cur (bytesOf "replied")
  | (.ok .replied, false) => removeTagOp snapshot cur (bytesOf "replied")
  | (.ok .seen, true) => removeTagOp snapshot cur (bytesOf "unread")
  | (.ok .seen, false) => addTagOp snapshot cur (bytesOf "unread")
  | (.ok .trashed, true) => addTagOp snapshot cur (bytesOf "trashed")
  | (.ok .trashed, false) => removeTagOp snapshot cur (bytesOf "trashed")
  | (.ok .otherFlag, _) => cur
  | (.error t, true) => addTagOp snapshot cur t
  | (.error t, false) => addTagOp snapshot cur t

/-- The whole flip loop of `NotmuchDb::set_flags` for one message: the
membership guards of `add_tag!`/`remove_tag!` consult the tag snapshot
taken before the loop, while the mutations accumulate on the current tag
set. -/
def set_flags (tags : List (List Nat))
    (flips : List (Except (List Nat) FlagOrLabel × Bool)) : List (List Nat) :=
  flips.foldl (setFlagsStep tags) tags

/-- Tag set equivalent of a flag bitset under `set_flags`: flip all six
canonical flags to their values in `F` on a message with no tags.  This
is the `tags_of` direction of the spec's flag ↔ tag bijection claim. -/
def tagsOfFlags (F : Flag) : List (List Nat) :=
  set_flags []
    [(.ok .draft, F.draft), (.ok .flagged, F.flagged), (.ok .passed, F.passed),
     (.ok .replied, F.replied), (.ok .seen, F.seen), (.ok .trashed, F.trashed)]

/-- Flag set derived from a tag set alone (a maildir path carrying no
flag suffix), the `flags_of` direction of the spec's bijection claim. -/
def flagsOfTags (tags : List (List Nat)) : Flag :=
  (collect_flags_and_tags (bytesOf "msg") tags).1

/-! ## IMAP watcher (`src/melib/src/backends/imap/watch.rs`)

`ImapWatcher::examine_updates` is embedded as a pure step function: the
network responses it consumes (the `resync` result, the parsed
`SELECT`/`EXAMINE` response, and the parsed `FETCH` rows) are inputs,
and the per-account `UIDStore`, the offline cache, and the emitted
refresh-event list are explicit state. -/

/-- Association-list lookup for the `UIDStore` maps. -/
def lookupA {α β : Type} [BEq α] (m : List (α × β)) (k : α) : Option β :=
  (m.find? (fun p => p.1 == k)).map (fun p => p.2)

/-- Association-list insert overriding any previous binding
(Rust `HashMap::insert`). -/
def insertA {α β : Type} [BEq α] (m : List (α × β)) (k : α) (v : β) : List (α × β) :=
  (k, v) :: m.filter (fun p => !(p.1 == k))

/-- The shared per-account IMAP state (`UIDStore`): stored per-mailbox
`UIDVALIDITY`, `(mailbox, uid) → envelope hash`, `envelope hash →
(uid, mailbox)`, and the per-mailbox message-sequence-number list. -/
structure UIDStore where
  uidvalidity : List (Nat × Nat)
  uid_index : List ((Nat × Nat) × Nat)
  hash_index : List (Nat × (Nat × Nat))
  msn_index : List (Nat × List Nat)
  deriving Repr, DecidableEq

/-- `RefreshEventKind` (backends.rs:163-171); `create` carries the hash
of the boxed envelope. -/
inductive RefreshKind
  | update (old : Nat) (new : Nat)
  | rename (old : Nat) (new : Nat)
  | create (envHash : Nat)
  | remove (envHash : Nat)
  | rescan
  | failure
  deriving Repr, DecidableEq

/-- A `RefreshEvent` as pushed by `conn.add_refresh_event`. -/
structure RefreshEvent where
  account_hash : Nat
  mailbox_hash : Nat
  kind : RefreshKind
  deriving Repr, DecidableEq

/-- A parsed `FetchResponse` row as consumed by the final loop of
`examine_updates` (watch.rs:508-550): an optional UID and an optional
envelope, the latter reduced to its hash (already rewritten to
`generate_envelope_hash(path, uid)` by the preceding loop). -/
structure FetchRow where
  uid : Option Nat
  envelope : Option Nat
  deriving Repr, DecidableEq

/-- State threaded through `examine_updates`: the UID store, the offline
cache (as mailbox-keyed entries), and the events emitted so far. -/
structure WatchState where
  store : UIDStore
  cache : List (Nat × Nat)
  events : List RefreshEvent
  deriving Repr, DecidableEq

/-- One iteration of the final row loop of `examine_updates`
(watch.rs:508-550): rows missing a UID or an envelope are skipped; a row
whose `(mailbox, uid)` pair is already in `uid_index` is skipped;
otherwise the UID is pushed onto `msn_index`, both hash maps gain the
row, and a `Create` event is emitted. -/
def processFetchRow (account_hash mailbox_hash : Nat) (st : WatchState)
    (row : FetchRow) : WatchState :=
  match row with
  | { uid := none, envelope := _ } => st
  | { uid := some _, envelope := none } => st
  | { uid := some uid, envelope := some envHash } =>
    if (lookupA st.store.uid_index (mailbox_hash, uid)).isSome then st
    else
      { st with
        store := { st.store with
          msn_index := insertA st.store.msn_index mailbox_hash
            ((lookupA st.store.msn_index mailbox_hash).getD [] ++ [uid]),
          hash_index := insertA st.store.hash_index envHash (uid, mailbox_hash),
          uid_index := insertA st.store.uid_index (mailbox_hash, uid) envHash },
        events := st.events ++
          [{ account_hash := account_hash, mailbox_hash := mailbox_hash,
             kind := .create envHash }] }

/-- The whole row loop of `examine_updates`. -/
def processFetchRows (account_hash mailbox_hash : Nat) (st : WatchState)
    (rows : List FetchRow) : WatchState :=
  rows.foldl (processFetchRow account_hash mailbox_hash) st

/-- The parsed `SELECT`/`EXAMINE` response fields `examine_updates`
reads. -/
structure SelectResponse where
  uidvalidity : Nat
  recent : Nat
  exists_count : Nat
  deriving Repr, DecidableEq

/-- Stages of `examine_updates` after the UIDVALIDITY check
(watch.rs:348-550): a cold mailbox only has its counters initialised
(observable state unchanged — networking and counter bookkeeping carry
no event and no index change) and is marked warm; else when `RECENT > 0`
or `EXISTS` exceeds the locally known count the fetched rows are
processed; else nothing changes. -/
def examineFetchStage (account_hash mailbox_hash : Nat) (is_cold : Bool)
    (resp : SelectResponse) (local_exists : Nat) (rows : List FetchRow)
    (st : WatchState) : WatchState :=
  if is_cold then st
  else if 0 < resp.recent then processFetchRows account_hash mailbox_hash st rows
  else if local_exists < resp.exists_count then
    processFetchRows account_hash mailbox_hash st rows
  else st

/-- `ImapWatcher::examine_updates` (watch.rs:296-553).  With
`no_select` the call is a no-op.  A successful `resync` emits a `Create`
per returned envelope.  Otherwise the mailbox is examined: when a stored
UIDVALIDITY exists and differs from the server's, the offline cache for
the mailbox is cleared (when caching is enabled) and a `Rescan` event is
emitted — the commented-out source lines that would clear `uid_index` /
`hash_index` do not run, and the stored UIDVALIDITY is not updated;
when no UIDVALIDITY is stored yet, the server's value is recorded.  The
remaining change detection is `examineFetchStage`. -/
def examine_updates (account_hash mailbox_hash : Nat) (no_select is_cold : Bool)
    (keep_offline_cache : Bool) (resync : Option (List Nat)) (resp : SelectResponse)
    (local_exists : Nat) (rows : List FetchRow) (st : WatchState) : WatchState :=
  if no_select then st
  else
    match resync with
    | some newEnvHashes =>
      { st with events := st.events ++ newEnvHashes.map (fun envHash =>
          { account_hash := account_hash, mailbox_hash := mailbox_hash,
            kind := .create envHash }) }
    | none =>
      match lookupA st.store.uidvalidity mailbox_hash with
      | some v =>
        if v ≠ resp.uidvalidity then
          { st with
            cache := if keep_offline_cache then
                st.cache.filter (fun p => !(p.1 == mailbox_hash))
              else st.cache,
            events := st.events ++
              [{ account_hash := account_hash, mailbox_hash := mailbox_hash,
                 kind := .rescan }] }
        else
          examineFetchStage account_hash mailbox_hash is_cold resp local_exists rows st
      | none =>
        examineFetchStage account_hash mailbox_hash is_cold resp local_exists rows
          { st with store := { st.store with
              uidvalidity := insertA st.store.uidvalidity mailbox_hash resp.uidvalidity } }

/-! ## Concrete scenario inputs -/

/-- An mbox buffer with a malformed block (second header line `???`)
between two well-formed messages. -/
def recBuf : List Nat :=
  bytesOf "From a@b Thu Jan  1 00:00:00 1970\nFrom: a@b\n\nhello\n\nFrom mal@x Thu Jan  1 00:00:00 1970\nA: b\n???\n\nbody2\n\nFrom c@d Thu Jan  1 00:00:01 1970\nFrom: c@d\n\nworld"

/-- Iterator over `recBuf` pinned to MboxRd. -/
def recIter : MessageIterator :=
  { index := [], input := recBuf, file_offset := 0, offset := 0, format := some .MboxRd }

/-- A two-message MboxRd buffer whose first message has no Message-ID. -/
def idxBuf : List Nat := bytesOf "From a b\nSubject: s\n\nhi\n\nFrom c d\nSubject: t\n\nbye"

/-- Iterator over `idxBuf`. -/
def idxIter : MessageIterator :=
  { index := [], input := idxBuf, file_offset := 0, offset := 0, format := some .MboxRd }

/-- The same buffer with a Message-ID on the first message. -/
def idxMidBuf : List Nat :=
  bytesOf "From a b\nMessage-ID: <m1@x>\nSubject: s\n\nhi\n\nFrom c d\nSubject: t\n\nbye"

/-- Iterator over `idxMidBuf`. -/
def idxMidIter : MessageIterator :=
  { index := [], input := idxMidBuf, file_offset := 0, offset := 0, format := some .MboxRd }

/-- A single message whose `Status` header contains the letter `T`. -/
def statusTBuf : List Nat := bytesOf "From a b\nStatus: T\nSubject: x\n\nbody"

/-- Scenario S2 of the spec: `Status: RO` and `X-Status: F`. -/
def s2Buf : List Nat := bytesOf "From a b\nStatus: RO\nX-Status: F\nSubject: x\n\nbody"

/-- A message whose body contains a quoted `>From ` line. -/
def quotedBuf : List Nat := bytesOf "From a b\nSubject: x\n\nbody\n>From quoted"

/-- A buffer whose first message is malformed, followed by one
well-formed message. -/
def recWitBuf : List Nat := bytesOf "From m x\nA: b\n???\n\nbody\n\nFrom c d\nFrom: c@d\n\nworld"

/-- Iterator over `recWitBuf` pinned to MboxRd. -/
def recWitIter : MessageIterator :=
  { index := [], input := recWitBuf, file_offset := 0, offset := 0, format := some .MboxRd }

/-! ## Theorems -/

/-- **C10.** For an empty mbox buffer the message iterator immediately
yields no item and no error, one `FetchState::fetch` call on empty
contents ends the stream without a batch and without an error, and the
fetch stream for an empty file yields no batch at all. -/
theorem mbox_empty_fetch :
    (∀ it : MessageIterator, it.input = [] → it.next = (it, none)) ∧
    (∀ s : FetchState, s.contents = [] → s.fetch = (s, none)) ∧
    (∀ n : Nat, ∀ s : FetchState, s.contents = [] → fetchStream n s = []) := by
  have hnext : ∀ it : MessageIterator, it.input = [] → it.next = (it, none) := by
    intro it h
    simp [MessageIterator.next, h]
  have hfetch : ∀ s : FetchState, s.contents = [] → s.fetch = (s, none) := by
    intro s h
    have h1 := hnext { index := s.index, input := s.contents, file_offset := s.file_offset, offset := s.offset, format := s.prefer_mbox_type } h
    simp [FetchState.fetch, fetchBatchAux, h1]
  refine ⟨hnext, hfetch, ?_⟩
  intro n s h
  cases n with
  | zero => rfl
  | succ m => simp [fetchStream, hfetch s h]

/-- The fetch state for an empty (zero-byte) mbox file. -/
def emptyFetchState : FetchState :=
  { offset := 0, file_offset := 0, contents := [], prefer_mbox_type := none, index := [] }

/-- Witness for `mbox_empty_fetch` at the empty-file fetch state. -/
theorem mbox_empty_fetch_witness :
    emptyFetchState.contents = [] ∧ fetchStream 3 emptyFetchState = [] :=
  ⟨rfl, mbox_empty_fetch.2.2 3 emptyFetchState rfl⟩

/-- **C8 (counterexample).**  Parsing a message with MboxRd keeps a body
line starting with `>From ` byte-for-byte: the leading `>` is not
removed, refuting the claimed un-quoting. -/
theorem mboxrd_no_unquote_counterexample :
    (MboxFormat.parse .MboxRd quotedBuf).map (fun r => r.2.body) =
        some (bytesOf "body\n>From quoted") ∧
    bytesOf "body\n>From quoted" ≠ bytesOf "body\nFrom quoted" := by
  constructor
  · rfl
  · decide

/-- **C8 (amended).**  MboxRd parsing is byte-for-byte identical to
MboxO parsing — both reproduce body bytes verbatim and neither un-quotes
`>From ` lines (the two source arms are identical); un-quoting would
only concern the writer, which is not part of the read path. -/
theorem mboxrd_equals_mboxo :
    (∀ input : List Nat, MboxFormat.parse .MboxRd input = MboxFormat.parse .MboxO input) ∧
    (MboxFormat.parse .MboxRd quotedBuf).map (fun r => r.2.body) =
      some (bytesOf "body\n>From quoted") := by
  constructor
  · intro input
    rfl
  · rfl

/-- **C7 (counterexample).**  A message whose `Status` header value
contains the letter `T` parses to an envelope without the Draft flag:
the `Status` block of `MboxFormat::parse` checks only F/A/R/D. -/
theorem mbox_status_T_counterexample :
    (MboxFormat.parse .MboxRd statusTBuf).map (fun r => r.2.flags.draft) = some false := by
  rfl

/-- Closed form of the repeated `Status`/`X-Status` letter block. -/
theorem applyStatusLetters_eq (f : Flag) (v : List Nat) (withT : Bool) :
    applyStatusLetters f v withT =
      { passed := f.passed, replied := f.replied || v.contains 65,
        seen := f.seen || v.contains 82, trashed := f.trashed || v.contains 68,
        draft := f.draft || (withT && v.contains 84),
        flagged := f.flagged || v.contains 70 } := by
  unfold applyStatusLetters
  cases h70 : v.contains 70 <;> cases h65 : v.contains 65 <;> cases h82 : v.contains 82 <;>
    cases h68 : v.contains 68 <;> cases hT : withT && v.contains 84 <;>
      simp [h70, h65, h82, h68, hT]

/-- **C7 (amended).**  In the flags computed by `MboxFormat::parse`, the
letters F, A, R and D set Flagged, Replied, Seen and Trashed from either
the `Status` or the `X-Status` header, but `T` sets Draft only from
`X-Status` (the `Status` block of the source omits the `T` check); the
Passed flag is never set.  In particular scenario S2 — `Status: RO` with
`X-Status: F` — parses to exactly the flag set with Seen and Flagged. -/
theorem mbox_status_letters :
    (∀ env : Envelope,
      mboxParseFlags env =
        { passed := false,
          replied := ((env.getHeader (bytesOf "Status")).getD []).contains 65
            || ((env.getHeader (bytesOf "X-Status")).getD []).contains 65,
          seen := ((env.getHeader (bytesOf "Status")).getD []).contains 82
            || ((env.getHeader (bytesOf "X-Status")).getD []).contains 82,
          trashed := ((env.getHeader (bytesOf "Status")).getD []).contains 68
            || ((env.getHeader (bytesOf "X-Status")).getD []).contains 68,
          draft := ((env.getHeader (bytesOf "X-Status")).getD []).contains 84,
          flagged := ((env.getHeader (bytesOf "Status")).getD []).contains 70
            || ((env.getHeader (bytesOf "X-Status")).getD []).contains 70 }) ∧
    (MboxFormat.parse .MboxRd s2Buf).map (fun r => r.2.flags) =
      some { seen := true, flagged := true } := by
  refine ⟨?_, rfl⟩
  intro env
  unfold mboxParseFlags
  cases hS : env.getHeader (bytesOf "Status") <;>
    cases hX : env.getHeader (bytesOf "X-Status") <;>
      simp [applyStatusLetters_eq, Flag.emptyFlag]

/-- The six canonical notmuch tags as a list selected by membership
booleans, in the order `set_flags` emits them. -/
def canonTags (d f p r u t : Bool) : List (List Nat) :=
  (if d then [bytesOf "draft"] else []) ++ (if f then [bytesOf "flagged"] else []) ++
  (if p then [bytesOf "passed"] else []) ++ (if r then [bytesOf "replied"] else []) ++
  (if u then [bytesOf "unread"] else []) ++ (if t then [bytesOf "trashed"] else [])

/-- **C2 (counterexample).**  The flag/tag round trips fail on the Seen
bit: a flag set containing only Seen converts to tags and back to the
empty flag set, and the empty tag set converts to flags and back to
`{unread}`. -/
theorem notmuch_roundtrip_counterexample :
    flagsOfTags (tagsOfFlags { seen := true }) ≠ ({ seen := true } : Flag) ∧
    tagsOfFlags (flagsOfTags []) ≠ ([] : List (List Nat)) := by
  constructor
  · decide
  · decide

/-- **C2 (amended).**  The five direct tags round-trip, but the Seen bit
does not survive the tag round trip: `flags_of(tags_of F)` equals `F`
with Seen cleared (so the round trip holds exactly when Seen is unset),
and `tags_of(flags_of T)` equals `T` with `unread` forced present (so it
holds exactly when `unread ∈ T`) — `collect_flags_and_tags` starts from
the empty bitset and the `unread` tag merely clears Seen, which is
instead recovered from the maildir filename suffix.  Unknown tags become
labels and are re-added as tags by `set_flags`. -/
theorem notmuch_tag_flag_roundtrip :
    (∀ F : Flag, flagsOfTags (tagsOfFlags F) = { F with seen := false }) ∧
    (∀ d f p r u t : Bool,
      tagsOfFlags (flagsOfTags (canonTags d f p r u t)) = canonTags d f p r true t) ∧
    (collect_flags_and_tags (bytesOf "msg") [bytesOf "custom1"]).2 = [bytesOf "custom1"] ∧
    set_flags [] [(.error (bytesOf "custom1"), true)] = [bytesOf "custom1"] := by
  refine ⟨?_, ?_, rfl, rfl⟩
  · intro F
    obtain ⟨p, r, s, t, d, fl⟩ := F
    cases p <;> cases r <;> cases s <;> cases t <;> cases d <;> cases fl <;> decide
  · intro d f p r u t
    cases d <;> cases f <;> cases p <;> cases r <;> cases u <;> cases t <;> decide

/-- **C1 (counterexample).**  With stored `UIDVALIDITY = 1` for mailbox
7, one known UID in `uid_index`, and a server response carrying
`UIDVALIDITY = 2`, `examine_updates` leaves the `uid_index` entry of
mailbox 7 in place and the stored UIDVALIDITY at 1 — refuting the
claimed purge of `uid_index` and recording of the new value (scenario
S3).  The lines that would clear the indices are commented out in the
source and the mismatched value is never inserted. -/
theorem imap_uidvalidity_counterexample :
    ¬ (((examine_updates 3 7 false false true none
          { uidvalidity := 2, recent := 0, exists_count := 0 } 0 []
          { store := { uidvalidity := [(7, 1)], uid_index := [((7, 5), 42)],
                       hash_index := [(42, (5, 7))], msn_index := [(7, [5])] },
            cache := [(7, 99)], events := [] }).store.uid_index.filter
              (fun p => p.1.1 == 7) = [])
      ∧ lookupA (examine_updates 3 7 false false true none
          { uidvalidity := 2, recent := 0, exists_count := 0 } 0 []
          { store := { uidvalidity := [(7, 1)], uid_index := [((7, 5), 42)],
                       hash_index := [(42, (5, 7))], msn_index := [(7, [5])] },
            cache := [(7, 99)], events := [] }).store.uidvalidity 7 = some 2) := by
  decide

/-- **C1 (amended).**  On a UIDVALIDITY mismatch `examine_updates` emits
`Rescan` as the next (and only) event of the call — in particular no
`Create` precedes or follows it in that call — and clears the offline
cache for the mailbox when caching is enabled, but it leaves every
`uid_index` entry and the stored UIDVALIDITY unchanged. -/
theorem imap_uidvalidity_rescan :
    ∀ (acc mh : Nat) (is_cold keep : Bool) (resp : SelectResponse) (le : Nat)
      (rows : List FetchRow) (st : WatchState) (v : Nat),
      lookupA st.store.uidvalidity mh = some v → v ≠ resp.uidvalidity →
      examine_updates acc mh false is_cold keep none resp le rows st =
        { st with
          cache := if keep then st.cache.filter (fun p => !(p.1 == mh)) else st.cache,
          events := st.events ++
            [{ account_hash := acc, mailbox_hash := mh, kind := .rescan }] } := by
  intro acc mh is_cold keep resp le rows st v h1 h2
  simp [examine_updates, h1, h2]

/-- Witness for `imap_uidvalidity_rescan` at the scenario-S3 input. -/
theorem imap_uidvalidity_rescan_witness :
    lookupA ({ store := { uidvalidity := [(7, 1)], uid_index := [((7, 5), 42)], hash_index := [(42, (5, 7))], msn_index := [(7, [5])] }, cache := [(7, 99)], events := [] } : WatchState).store.uidvalidity 7 = some 1 ∧
    (1 : Nat) ≠ 2 ∧
    examine_updates 3 7 false false true none { uidvalidity := 2, recent := 0, exists_count := 0 } 0 [] { store := { uidvalidity := [(7, 1)], uid_index := [((7, 5), 42)], hash_index := [(42, (5, 7))], msn_index := [(7, [5])] }, cache := [(7, 99)], events := [] } =
      { store := { uidvalidity := [(7, 1)], uid_index := [((7, 5), 42)], hash_index := [(42, (5, 7))], msn_index := [(7, [5])] }, cache := [], events := [{ account_hash := 3, mailbox_hash := 7, kind := .rescan }] } := by
  refine ⟨rfl, by decide, ?_⟩
  have h := imap_uidvalidity_rescan 3 7 false true { uidvalidity := 2, recent := 0, exists_count := 0 } 0 [] { store := { uidvalidity := [(7, 1)], uid_index := [((7, 5), 42)], hash_index := [(42, (5, 7))], msn_index := [(7, [5])] }, cache := [(7, 99)], events := [] } 1 rfl (by decide)
  simpa using h

/-- **C6.**  A fetched row whose `(mailbox, uid)` pair is already in
`uid_index` changes nothing: no `Create` event and no insertion into
`msn_index`, `hash_index` or `uid_index`; consequently a replayed FETCH
response all of whose rows carry already-known pairs leaves the whole
watch state — including the event list — unchanged. -/
theorem imap_create_idempotent :
    (∀ (acc mh : Nat) (st : WatchState) (uid envHash : Nat),
      (lookupA st.store.uid_index (mh, uid)).isSome →
      processFetchRow acc mh st { uid := some uid, envelope := some envHash } = st) ∧
    (∀ (acc mh : Nat) (st : WatchState) (rows : List FetchRow),
      (∀ r ∈ rows, ∀ uid, r.uid = some uid →
        (lookupA st.store.uid_index (mh, uid)).isSome) →
      processFetchRows acc mh st rows = st) := by
  have hrow : ∀ (acc mh : Nat) (st : WatchState) (uid envHash : Nat),
      (lookupA st.store.uid_index (mh, uid)).isSome →
      processFetchRow acc mh st { uid := some uid, envelope := some envHash } = st := by
    intro acc mh st uid envHash h
    simp [processFetchRow, h]
  refine ⟨hrow, ?_⟩
  intro acc mh st rows
  induction rows with
  | nil => intro _; rfl
  | cons r rest ih =>
    intro h
    have hr : processFetchRow acc mh st r = st := by
      match r with
      | { uid := none, envelope := _ } => rfl
      | { uid := some uid, envelope := none } => rfl
      | { uid := some uid, envelope := some envHash } =>
        exact hrow acc mh st uid envHash (h _ (List.mem_cons_self _ _) uid rfl)
    have : processFetchRows acc mh st (r :: rest) = processFetchRows acc mh st rest := by
      simp [processFetchRows, List.foldl_cons, hr]
    rw [this]
    exact ih (fun r2 hm uid hu => h r2 (List.mem_cons_of_mem _ hm) uid hu)

/-- Witness for `imap_create_idempotent`: replaying a known row over a
store that already maps `(7, 5) ↦ 42` changes nothing. -/
theorem imap_create_idempotent_witness :
    (∀ r ∈ [({ uid := some 5, envelope := some 42 } : FetchRow)], ∀ uid : Nat,
      r.uid = some uid →
      (lookupA ({ store := { uidvalidity := [(7, 1)], uid_index := [((7, 5), 42)], hash_index := [(42, (5, 7))], msn_index := [(7, [5])] }, cache := [], events := [] } : WatchState).store.uid_index (7, uid)).isSome) ∧
    processFetchRows 3 7 { store := { uidvalidity := [(7, 1)], uid_index := [((7, 5), 42)], hash_index := [(42, (5, 7))], msn_index := [(7, [5])] }, cache := [], events := [] } [{ uid := some 5, envelope := some 42 }] =
      { store := { uidvalidity := [(7, 1)], uid_index := [((7, 5), 42)], hash_index := [(42, (5, 7))], msn_index := [(7, [5])] }, cache := [], events := [] } := by
  refine ⟨by decide, ?_⟩
  exact imap_create_idempotent.2 3 7 _ _ (by decide)

set_option maxRecDepth 40000 in
/-- **C3.**  Parser recovery: (i) when parsing the current chunk fails
and a candidate `From_` line exists, the iterator continues at that
candidate (skipping the two separator newlines unless at end of file) —
the error is not surfaced and iteration proceeds; (ii) only when no
candidate exists does the iterator surface the error and terminate the
stream (the following call yields nothing); (iii) on a concrete buffer
with a malformed block between two well-formed messages, exactly the
malformed message is dropped and both well-formed messages are
produced. -/
theorem mbox_parser_recovery :
    (∀ (fuel : Nat) (it : MessageIterator) (nextOffset : Nat),
      it.chunk.isEmpty = false →
      (it.format.getD .MboxCl2).parse it.chunk = none →
      find_From_line it.chunk = some nextOffset →
      msgNextAux (fuel + 1) it = msgNextAux fuel (it.advance nextOffset)) ∧
    (∀ (fuel : Nat) (it : MessageIterator),
      it.chunk.isEmpty = false →
      (it.format.getD .MboxCl2).parse it.chunk = none →
      find_From_line it.chunk = none →
      msgNextAux (fuel + 1) it = ({ it with input := [] }, some .err) ∧
        MessageIterator.next { it with input := [] } = ({ it with input := [] }, none)) ∧
    (msgIterRun 6 recIter).map MessageResult.bodyOf =
      [some (bytesOf "hello"), some (bytesOf "world")] := by
  refine ⟨?_, ?_, ?_⟩
  · intro fuel it nextOffset h1 h2 h3
    simp [msgNextAux, h1, h2, h3]
  · intro fuel it h1 h2 h3
    constructor
    · simp [msgNextAux, h1, h2, h3]
    · simp [MessageIterator.next]
  · rfl

/-- Witness for `mbox_parser_recovery` at a malformed first message:
parsing fails, the candidate is at offset 23, and the iterator continues
there. -/
theorem mbox_parser_recovery_witness :
    recWitIter.chunk.isEmpty = false ∧
    (recWitIter.format.getD .MboxCl2).parse recWitIter.chunk = none ∧
    find_From_line recWitIter.chunk = some 23 ∧
    msgNextAux 5 recWitIter = msgNextAux 4 (recWitIter.advance 23) := by
  refine ⟨rfl, rfl, rfl, ?_⟩
  exact mbox_parser_recovery.1 4 recWitIter 23 rfl rfl rfl

/-- Advancing the offset commutes with replacing the pinned format. -/
theorem advance_setFormat (it : MessageIterator) (fmt : Option MboxFormat) (n : Nat) :
    (it.setFormat fmt).advance n = (it.advance n).setFormat fmt := by
  unfold MessageIterator.advance MessageIterator.setFormat
  dsimp
  split <;> rfl

/-- The recovery advance leaves the pinned format unchanged. -/
theorem advance_format (it : MessageIterator) (n : Nat) :
    (it.advance n).format = it.format := by
  unfold MessageIterator.advance
  dsimp
  split <;> rfl

/-- `msgNextAux` with an unpinned format behaves exactly as with the
format pinned to MboxCl2, up to the `format` field stored in the
returned iterator state. -/
theorem msgNextAux_pin_cl2 (fuel : Nat) :
    ∀ it : MessageIterator, it.format = none →
      msgNextAux fuel it =
        ((msgNextAux fuel (it.setFormat (some .MboxCl2))).1.setFormat none,
         (msgNextAux fuel (it.setFormat (some .MboxCl2))).2) := by
  induction fuel with
  | zero =>
    intro it h
    obtain ⟨index, input, fo, off, fmt⟩ := it
    dsimp at h
    subst h
    rfl
  | succ fuel ih =>
    intro it h
    obtain ⟨index, input, fo, off, fmt⟩ := it
    dsimp at h
    subst h
    simp only [msgNextAux, MessageIterator.setFormat, MessageIterator.chunk]
    dsimp
    by_cases hc : (input.drop (off + fo)).isEmpty
    · simp [hc]
    · simp only [hc, Bool.false_eq_true, if_false]
      cases hp : MboxFormat.MboxCl2.parse (input.drop (off + fo)) with
      | some r =>
        rcases r with ⟨nextInput, env⟩
        simp [hp]
      | none =>
        simp only [hp]
        cases hf : find_From_line (input.drop (off + fo)) with
        | some nextOffset =>
          simp only [hf]
          have hlit : ({ index := index, input := input, file_offset := fo, offset := off, format := some .MboxCl2 } : MessageIterator) = ({ index := index, input := input, file_offset := fo, offset := off, format := none } : MessageIterator).setFormat (some .MboxCl2) := rfl
          rw [hlit, advance_setFormat]
          exact ih _ (by
            rw [advance_format])
        | none =>
          simp [MessageIterator.setFormat]

/-- **C4.**  With no pinned variant the iterator parses exactly as with
the variant pinned to MboxCl2 (up to the stored `format` field), i.e.
MboxCl2 is attempted first; and whenever the header block lacks a
parseable `Content-Length` (extraction returns `none`) or the MboxCl2
envelope parse fails, `MboxFormat::parse` re-parses the same input as
MboxRd. -/
theorem mbox_format_autodetect :
    (∀ (fuel : Nat) (it : MessageIterator), it.format = none →
      msgNextAux fuel it =
        ((msgNextAux fuel (it.setFormat (some .MboxCl2))).1.setFormat none,
         (msgNextAux fuel (it.setFormat (some .MboxCl2))).2)) ∧
    (∀ input : List Nat, cl2ContentLength input = none →
      MboxFormat.parse .MboxCl2 input = MboxFormat.parse .MboxRd input) ∧
    (∀ (input : List Nat) (n : Nat), cl2ContentLength input = some n →
      cl2EnvelopeAttempt input n = none →
      MboxFormat.parse .MboxCl2 input = MboxFormat.parse .MboxRd input) := by
  refine ⟨msgNextAux_pin_cl2, ?_, ?_⟩
  · intro input h
    simp [MboxFormat.parse, parseMboxCl, h]
  · intro input n h1 h2
    simp [MboxFormat.parse, parseMboxCl, h1, h2]

/-- Witness for `mbox_format_autodetect`: an unpinned iterator over
scenario S1, and a buffer without a `Content-Length` header falling
back to MboxRd. -/
theorem mbox_format_autodetect_witness :
    ({ index := [], input := idxBuf, file_offset := 0, offset := 0, format := none } : MessageIterator).format = none ∧
    msgNextAux 4 { index := [], input := idxBuf, file_offset := 0, offset := 0, format := none } =
      ((msgNextAux 4 (({ index := [], input := idxBuf, file_offset := 0, offset := 0, format := none } : MessageIterator).setFormat (some .MboxCl2))).1.setFormat none,
       (msgNextAux 4 (({ index := [], input := idxBuf, file_offset := 0, offset := 0, format := none } : MessageIterator).setFormat (some .MboxCl2))).2) ∧
    cl2ContentLength idxBuf = none ∧
    MboxFormat.parse .MboxCl2 idxBuf = MboxFormat.parse .MboxRd idxBuf := by
  refine ⟨rfl, mbox_format_autodetect.1 4 _ rfl, rfl, mbox_format_autodetect.2.1 idxBuf rfl⟩

/-- The first envelope of `idxBuf`. -/
def idxEnv1 : Envelope :=
  { headers := [(bytesOf "Subject", bytesOf "s")], body := bytesOf "hi",
    hash := 17741174, flags := {} }

set_option maxRecDepth 40000 in
/-- **C5 (counterexample).**  On `idxBuf` (first message without a
Message-ID) the iterator records `hash ↦ (9, 16)`; the recorded slice
spans the header block plus body plus the trailing blank-line separator,
and re-parsing it yields an envelope whose digest-based hash differs
from the key, refuting the claimed re-parse invariant. -/
theorem mbox_index_reparse_counterexample :
    (idxIter.next).1.index = [(17741174, (9, 16))] ∧
    (Envelope.from_bytes ((idxBuf.drop 9).take 16)).map Envelope.hash =
      some 304456288466 ∧
    (304456288466 : Nat) ≠ 17741174 := by
  refine ⟨rfl, rfl, ?_⟩
  decide

set_option maxRecDepth 40000 in
/-- **C5 (amended).**  (i) On every successful parse the iterator
inserts `env.hash ↦ (offset, length)` with `offset` the first byte after
the `From_` line (the `postmarkSkip` of the chunk) and `length` spanning
to the start of the returned remainder.  (ii) For an MboxRd mid-file
message the remainder starts right at the next `From_` candidate line,
so the recorded slice extends to — but does not include — the candidate
(while including the separating blank line).  (iii) The recorded slice
re-parses to an envelope with the same hash when the message carries a
Message-ID, as on `idxMidBuf`; without one the appended blank-line bytes
can change the digest-based hash. -/
theorem mbox_index_entry :
    (∀ (fuel : Nat) (it : MessageIterator) (nextInput : List Nat) (env : Envelope),
      it.chunk.isEmpty = false →
      (it.format.getD .MboxCl2).parse it.chunk = some (nextInput, env) →
      msgNextAux (fuel + 1) it =
        ({ it with
            index := insertIdx it.index env.hash
              (it.offset + it.file_offset + postmarkSkip it.chunk,
               it.input.length - nextInput.length - it.offset - it.file_offset -
                 postmarkSkip it.chunk),
            offset := it.offset +
              (it.input.length - nextInput.length - it.offset - it.file_offset -
                postmarkSkip it.chunk) + postmarkSkip it.chunk },
         some (.ok env))) ∧
    (∀ (input : List Nat) (s0 e : Nat) (env : Envelope),
      find_From_line input = some e →
      findSub input [10] = some s0 →
      (e == input.length) = false →
      Envelope.from_bytes ((input.drop (s0 + 1)).take (e - (s0 + 1))) = some env →
      MboxFormat.parse .MboxRd input = some (input.drop (e + 2), withMboxFlags env)) ∧
    ((idxMidIter.next).1.index = [(37763249405917, (9, 35))] ∧
      (Envelope.from_bytes ((idxMidBuf.drop 9).take 35)).map Envelope.hash =
        some 37763249405917) := by
  refine ⟨?_, ?_, rfl, rfl⟩
  · intro fuel it nextInput env h1 h2
    simp [msgNextAux, h1, h2]
  · intro input s0 e env h1 h2 h3 h4
    simp [MboxFormat.parse, parseMboxRd, h1, h2, h3, h4]

set_option maxRecDepth 40000 in
/-- Witness for `mbox_index_entry` on `idxBuf`: the mid-file MboxRd
parse of the first message ends exactly at the next candidate. -/
theorem mbox_index_entry_witness :
    find_From_line idxBuf = some 23 ∧
    findSub idxBuf [10] = some 8 ∧
    ((23 == idxBuf.length) = false) ∧
    Envelope.from_bytes ((idxBuf.drop (8 + 1)).take (23 - (8 + 1))) = some idxEnv1 ∧
    MboxFormat.parse .MboxRd idxBuf = some (idxBuf.drop (23 + 2), withMboxFlags idxEnv1) := by
  refine ⟨rfl, rfl, rfl, rfl, ?_⟩
  exact mbox_index_entry.2.1 idxBuf 8 23 idxEnv1 rfl rfl rfl rfl

/-- **C9 (code_bug).**  In `NotmuchDb::set_flags` the user-label arm for
a `false` flip calls `add_tag!` (identical to the `true` arm), so
flipping the label `custom1` off leaves it present on a message that has
it and even adds it to a message that lacks it, contradicting the
specified add/remove delta. -/
theorem notmuch_label_false_flip_adds :
    set_flags [] [(.error (bytesOf "custom1"), false)] = [bytesOf "custom1"] ∧
    set_flags [bytesOf "custom1"] [(.error (bytesOf "custom1"), false)] =
      [bytesOf "custom1"] := by
  constructor
  · rfl
  · rfl

end Meli
